import Mathlib

/-!
Verification of the contest coordinator and judging pipeline of the
AI-Agents-Arena repository (Go), as a shallow embedding in Lean 4.

Go strings are modelled as `List Char`; Go `int32` / `int` fields are
modelled as `Int` (all quantities involved stay far from the 32-bit range,
so wrap-around is immaterial); `time.Time` values are modelled as integer
second counts; UUIDs are modelled as `Nat` identifiers.  Diagnostic
message strings (verdict messages, error messages) are carried as
`List Char` where a claim needs them and omitted otherwise.  Fallible Go
calls are modelled with `Except`, and the gorm convention of signalling a
missing row by `(nil, nil)` is modelled as `Except.ok none`.
-/

/-- Character class used by `strings.TrimSpace` (Go `unicode.IsSpace`),
restricted to the Latin-1 white-space code points: TAB, LF, VT, FF, CR,
SPACE, NEL and NBSP. -/
def goIsSpace (c : Char) : Bool :=
  c.toNat = 9 || c.toNat = 10 || c.toNat = 11 || c.toNat = 12 ||
  c.toNat = 13 || c.toNat = 32 || c.toNat = 133 || c.toNat = 160

/-- Go `strings.TrimSpace`: removes the maximal run of white space from
both ends of the string. -/
def strings.TrimSpace (s : List Char) : List Char :=
  ((s.dropWhile goIsSpace).reverse.dropWhile goIsSpace).reverse

/-- The composition `strings.ReplaceAll (strings.ReplaceAll s " " "") "\n" ""`
used by both executors in `compareOutputIgnoreWhitespace`: removes every
space and every newline character (and nothing else). -/
def stripSpaceNewline (s : List Char) : List Char :=
  s.filter (fun c => !(c.toNat = 32 || c.toNat = 10))

/-- Per-test-case verdicts (`models.TestCaseStatus` plus the raw
`"NOT_EXECUTED"` marker used by the Docker executor). -/
inductive TestCaseStatus where
  | passed
  | wrongAnswer
  | timeLimitExceeded
  | memoryLimitExceeded
  | runtimeError
  | presentationError
  | notExecuted
  deriving DecidableEq, Repr

/-- Submission verdict taxonomy (`models.SubmissionStatus`). -/
inductive SubmissionStatus where
  | pending
  | compiling
  | running
  | accepted
  | wrongAnswer
  | presentationError
  | timeLimitExceeded
  | memoryLimitExceeded
  | runtimeError
  | compilationError
  | outputLimitExceeded
  | judgementFailed
  deriving DecidableEq, Repr

/-- The terminal verdicts of the taxonomy (everything except
PENDING, COMPILING, RUNNING). -/
def SubmissionStatus.isTerminal : SubmissionStatus → Bool
  | SubmissionStatus.pending => false
  | SubmissionStatus.compiling => false
  | SubmissionStatus.running => false
  | _ => true

/-- `models.ProblemStatus`. -/
inductive ProblemStatus where
  | accepted
  | tried
  | nonTried
  deriving DecidableEq, Repr

/-- `models.ContestState`. -/
inductive ContestState where
  | running
  | finished
  deriving DecidableEq, Repr

/-- `models.TestCaseData`: one test case as shipped in an
`ExecutionRequest`. -/
structure TestCaseData where
  input : List Char
  expectedOutput : List Char
  testOrder : Int
  deriving DecidableEq, Repr

/-- `models.TestCaseResult` (diagnostic `error_message` omitted). -/
structure TestCaseResult where
  testOrder : Int
  status : TestCaseStatus
  actualOutput : List Char
  expectedOutput : List Char
  executionTimeMs : Int
  memoryUsedKb : Int
  deriving DecidableEq, Repr

/-- `DockerExecutor.compareOutput`: equality after `strings.TrimSpace`
on both sides. -/
def DockerExecutor.compareOutput (actual expected : List Char) : Bool :=
  strings.TrimSpace actual = strings.TrimSpace expected

/-- `DockerExecutor.compareOutputIgnoreWhitespace`: equality after
removing all spaces and newlines from both sides. -/
def DockerExecutor.compareOutputIgnoreWhitespace (actual expected : List Char) : Bool :=
  stripSpaceNewline actual = stripSpaceNewline expected

/-- `DockerExecutor.readContainerOutput`: the demultiplexed container
stdout is returned through `strings.TrimSpace`. -/
def DockerExecutor.readContainerOutput (raw : List Char) : List Char :=
  strings.TrimSpace raw

/-- The classification chain of `DockerExecutor.executeTestCase`, as a
function of the run observations: whether the wall-clock timeout fired
(`timedOut`), the container exit code, the peak memory reported by the
stats endpoint (kB), and the raw container stdout.  Mirrors the source
order exactly: timeout, then non-zero exit, then the memory limit, then
the output comparison.  The `executionTimeMs` measurement is irrelevant
to every claim and recorded as an opaque parameter. -/
def DockerExecutor.executeTestCase (memoryLimitMb : Int) (tc : TestCaseData)
    (timedOut : Bool) (exitCode : Int) (memoryUsedKb : Int)
    (rawLogs : List Char) (actualTimeMs : Int) : TestCaseResult :=
  if timedOut then
    { testOrder := tc.testOrder
      status := TestCaseStatus.timeLimitExceeded
      actualOutput := []
      expectedOutput := tc.expectedOutput
      executionTimeMs := actualTimeMs
      memoryUsedKb := 0 }
  else if exitCode ≠ 0 then
    { testOrder := tc.testOrder
      status := TestCaseStatus.runtimeError
      actualOutput := DockerExecutor.readContainerOutput rawLogs
      expectedOutput := tc.expectedOutput
      executionTimeMs := actualTimeMs
      memoryUsedKb := memoryUsedKb }
  else if memoryUsedKb > memoryLimitMb * 1024 then
    { testOrder := tc.testOrder
      status := TestCaseStatus.memoryLimitExceeded
      actualOutput := DockerExecutor.readContainerOutput rawLogs
      expectedOutput := tc.expectedOutput
      executionTimeMs := actualTimeMs
      memoryUsedKb := memoryUsedKb }
  else
    { testOrder := tc.testOrder
      status :=
        if DockerExecutor.compareOutput (DockerExecutor.readContainerOutput rawLogs)
            tc.expectedOutput then
          TestCaseStatus.passed
        else if DockerExecutor.compareOutputIgnoreWhitespace
            (DockerExecutor.readContainerOutput rawLogs) tc.expectedOutput then
          TestCaseStatus.presentationError
        else
          TestCaseStatus.wrongAnswer
      actualOutput := DockerExecutor.readContainerOutput rawLogs
      expectedOutput := tc.expectedOutput
      executionTimeMs := actualTimeMs
      memoryUsedKb := memoryUsedKb }

/-- `DirectExecutor.compareOutputIgnoreWhitespace` (identical text to the
Docker one in the source). -/
def DirectExecutor.compareOutputIgnoreWhitespace (actual expected : List Char) : Bool :=
  stripSpaceNewline actual = stripSpaceNewline expected

/-- The classification chain of `DirectExecutor.executeTestCase`.  The
source declares `var memoryUsed int32` and never assigns it, so every
result carries `memoryUsedKb = 0` and no memory check exists.  Order:
timeout, then non-zero exit, then output comparison on the
`strings.TrimSpace`d actual and expected outputs. -/
def DirectExecutor.executeTestCase (tc : TestCaseData)
    (timedOut : Bool) (exitCode : Int) (rawStdout : List Char)
    (actualTimeMs : Int) : TestCaseResult :=
  if timedOut then
    { testOrder := tc.testOrder
      status := TestCaseStatus.timeLimitExceeded
      actualOutput := []
      expectedOutput := tc.expectedOutput
      executionTimeMs := actualTimeMs
      memoryUsedKb := 0 }
  else if exitCode ≠ 0 then
    { testOrder := tc.testOrder
      status := TestCaseStatus.runtimeError
      actualOutput := rawStdout
      expectedOutput := tc.expectedOutput
      executionTimeMs := actualTimeMs
      memoryUsedKb := 0 }
  else
    { testOrder := tc.testOrder
      status :=
        if strings.TrimSpace rawStdout = strings.TrimSpace tc.expectedOutput then
          TestCaseStatus.passed
        else if DirectExecutor.compareOutputIgnoreWhitespace (strings.TrimSpace rawStdout)
            (strings.TrimSpace tc.expectedOutput) then
          TestCaseStatus.presentationError
        else
          TestCaseStatus.wrongAnswer
      actualOutput := strings.TrimSpace rawStdout
      expectedOutput := strings.TrimSpace tc.expectedOutput
      executionTimeMs := actualTimeMs
      memoryUsedKb := 0 }

/-- One observed run of a test-case process under the direct executor:
whether the deadline fired, the exit code, the raw stdout and the
measured wall time. -/
structure DirectRun where
  timedOut : Bool
  exitCode : Int
  rawStdout : List Char
  actualTimeMs : Int
  deriving DecidableEq, Repr

/-- The test-case loop shared by `DirectExecutor.executeCpp` and
`DirectExecutor.executePython`: runs the cases in order and stops after
the first result whose status is not PASSED. -/
def DirectExecutor.runTestCases : List (TestCaseData × DirectRun) → List TestCaseResult
  | [] => []
  | (tc, run) :: rest =>
      let r := DirectExecutor.executeTestCase tc run.timedOut run.exitCode
        run.rawStdout run.actualTimeMs
      if r.status = TestCaseStatus.passed then
        r :: DirectExecutor.runTestCases rest
      else
        [r]

/-- The body of the verdict-aggregation loop of `DirectExecutor.Execute`:
the `switch` on one test-case status (no default arm, so PASSED and
NOT_EXECUTED leave the accumulator unchanged). -/
def DirectExecutor.aggregateStep (acc : SubmissionStatus) (r : TestCaseResult) :
    SubmissionStatus :=
  match r.status with
  | TestCaseStatus.timeLimitExceeded => SubmissionStatus.timeLimitExceeded
  | TestCaseStatus.memoryLimitExceeded => SubmissionStatus.memoryLimitExceeded
  | TestCaseStatus.runtimeError => SubmissionStatus.runtimeError
  | TestCaseStatus.wrongAnswer => SubmissionStatus.wrongAnswer
  | TestCaseStatus.presentationError => SubmissionStatus.presentationError
  | _ => acc

/-- The verdict-aggregation loop of `DirectExecutor.Execute`: starts from
ACCEPTED and folds `aggregateStep` over the results in order. -/
def DirectExecutor.aggregateStatus (results : List TestCaseResult) : SubmissionStatus :=
  results.foldl DirectExecutor.aggregateStep SubmissionStatus.accepted

/-- The two failure modes `DirectExecutor.Execute` distinguishes when
`ExecuteCode` returns an error: a compilation failure versus any other
execution failure. -/
inductive ExecError where
  | compilationFailed
  | other
  deriving DecidableEq, Repr

/-- `DirectExecutor.Execute`: the submission status produced from the
outcome of `ExecuteCode`. -/
def DirectExecutor.Execute (outcome : Except ExecError (List TestCaseResult)) :
    SubmissionStatus :=
  match outcome with
  | Except.error ExecError.compilationFailed => SubmissionStatus.compilationError
  | Except.error ExecError.other => SubmissionStatus.judgementFailed
  | Except.ok results => DirectExecutor.aggregateStatus results

/-- Which executor backend a component constructs. -/
inductive ExecutorKind where
  | docker
  | direct
  deriving DecidableEq, Repr

/-- `NewWorkerService` sets `executor: executors.NewDirectExecutor()`:
the worker service always judges through the direct backend. -/
def NewWorkerService.executorKind : ExecutorKind := ExecutorKind.direct

/-- The output-classification chain exactly as the specification words
it: equal after trimming surrounding whitespace → PASSED, otherwise
equal after removing all spaces and newlines from both → PRESENTATION_ERROR,
otherwise WRONG_ANSWER. -/
def outputChainStatus (actual expected : List Char) : TestCaseStatus :=
  if strings.TrimSpace actual = strings.TrimSpace expected then
    TestCaseStatus.passed
  else if stripSpaceNewline actual = stripSpaceNewline expected then
    TestCaseStatus.presentationError
  else
    TestCaseStatus.wrongAnswer

/-- `models.Contest` (navigation fields and audit timestamps omitted;
problems are related through the `contest_problems` join rows of the
store). -/
structure Contest where
  id : Nat
  state : ContestState
  startedAt : Int
  endsAt : Int
  numProblems : Int
  deriving DecidableEq, Repr

/-- `models.Participant` (model names are identified by `Nat` codes). -/
structure Participant where
  id : Nat
  contestId : Nat
  modelName : Nat
  solved : Int
  totalPenaltySeconds : Int
  deriving DecidableEq, Repr

/-- `models.ProblemResult`, keyed by `(participant_id, problem_id)`. -/
structure ProblemResult where
  participantId : Nat
  problemId : Nat
  status : ProblemStatus
  penaltyCount : Int
  penaltySeconds : Int
  deriving DecidableEq, Repr

/-- `models.Submission` (code, language and `judged_at` omitted: no
claim touches them). -/
structure Submission where
  id : Nat
  contestId : Nat
  participantId : Nat
  problemId : Nat
  status : SubmissionStatus
  verdictMessage : List Char
  totalTestCases : Int
  processedTestCases : Int
  submittedAt : Int
  deriving DecidableEq, Repr

/-- The relational store behind the persistence gateway: one list of
rows per table.  `contestProblems` holds `(contest_id, problem_id)`
join rows; problems themselves are referenced only by id. -/
structure Store where
  contests : List Contest
  participants : List Participant
  problemResults : List ProblemResult
  submissions : List Submission
  contestProblems : List (Nat × Nat)
  deriving DecidableEq, Repr

/-- Database-layer failure modes of the model.  A pure store never
fails, but the `Except` layer keeps the gorm convention visible:
a missing row is `Except.ok none`, never an error. -/
inductive DBError where
  | queryFailed
  deriving DecidableEq, Repr

/-- `SubmissionRepository.GetSubmission`: `First(&submission, "id = ?")`
with `gorm.ErrRecordNotFound` mapped to `(nil, nil)`. -/
def SubmissionRepository.GetSubmission (s : Store) (id : Nat) :
    Except DBError (Option Submission) :=
  Except.ok (s.submissions.find? (fun x => x.id == id))

/-- `ParticipantRepository.GetParticipant`: same not-found convention. -/
def ParticipantRepository.GetParticipant (s : Store) (id : Nat) :
    Except DBError (Option Participant) :=
  Except.ok (s.participants.find? (fun x => x.id == id))

/-- `ContestRepository.GetContest`: same not-found convention. -/
def ContestRepository.GetContest (s : Store) (id : Nat) :
    Except DBError (Option Contest) :=
  Except.ok (s.contests.find? (fun x => x.id == id))

/-- `SubmissionRepository.UpdateSubmissionStatus`: an unconditional
`UPDATE submissions SET status, verdict_message WHERE id = ?`; no guard
inspects the previous status. -/
def SubmissionRepository.UpdateSubmissionStatus (s : Store) (id : Nat)
    (status : SubmissionStatus) (verdict : List Char) : Store :=
  { s with
    submissions := s.submissions.map (fun x =>
      if x.id == id then { x with status := status, verdictMessage := verdict } else x) }

/-- `SubmissionRepository.UpdateSubmissionTestCaseProgress`. -/
def SubmissionRepository.UpdateSubmissionTestCaseProgress (s : Store) (id : Nat)
    (totalTestCases processedTestCases : Int) : Store :=
  { s with
    submissions := s.submissions.map (fun x =>
      if x.id == id then
        { x with totalTestCases := totalTestCases,
                 processedTestCases := processedTestCases }
      else x) }

/-- `ContestRepository.UpdateContestState`:
`UPDATE contests SET state WHERE id = ?`. -/
def ContestRepository.UpdateContestState (s : Store) (id : Nat)
    (state : ContestState) : Store :=
  { s with
    contests := s.contests.map (fun x =>
      if x.id == id then { x with state := state } else x) }

/-- `ProblemResultRepository.UpsertProblemResult`: gorm `Save` on the
composite primary key `(participant_id, problem_id)`: replaces the
matching row when it exists, inserts otherwise. -/
def ProblemResultRepository.UpsertProblemResult (s : Store) (pr : ProblemResult) : Store :=
  if s.problemResults.any (fun x =>
      x.participantId == pr.participantId && x.problemId == pr.problemId) then
    { s with
      problemResults := s.problemResults.map (fun x =>
        if x.participantId == pr.participantId && x.problemId == pr.problemId then pr
        else x) }
  else
    { s with problemResults := s.problemResults ++ [pr] }

/-- `ParticipantRepository.UpdateParticipantStats`:
`UPDATE participants SET solved, total_penalty_seconds WHERE id = ?`. -/
def ParticipantRepository.UpdateParticipantStats (s : Store) (id : Nat)
    (solved totalPenalty : Int) : Store :=
  { s with
    participants := s.participants.map (fun x =>
      if x.id == id then
        { x with solved := solved, totalPenaltySeconds := totalPenalty }
      else x) }

/-- The ordering actually requested by
`ParticipantRepository.GetParticipantsByContest`:
`Order("solved DESC, total_penalty_seconds ASC")` — two keys, nothing
else. -/
def leaderboardOrder (p q : Participant) : Prop :=
  q.solved < p.solved ∨ (p.solved = q.solved ∧ p.totalPenaltySeconds ≤ q.totalPenaltySeconds)

instance : DecidableRel leaderboardOrder := fun p q => by
  unfold leaderboardOrder
  infer_instance

instance : IsTotal Participant leaderboardOrder := by
  constructor
  intro p q
  unfold leaderboardOrder
  omega

instance : IsTrans Participant leaderboardOrder := by
  constructor
  intro p q r hpq hqr
  unfold leaderboardOrder at hpq hqr ⊢
  omega

/-- The three-key ordering the specification asserts for the
leaderboard: `solved DESC, total_penalty_seconds ASC, id ASC`. -/
def leaderboardOrderWithId (p q : Participant) : Prop :=
  q.solved < p.solved ∨
    (p.solved = q.solved ∧
      (p.totalPenaltySeconds < q.totalPenaltySeconds ∨
        (p.totalPenaltySeconds = q.totalPenaltySeconds ∧ p.id ≤ q.id)))

instance : DecidableRel leaderboardOrderWithId := fun p q => by
  unfold leaderboardOrderWithId
  infer_instance

/-- What a SQL row source is allowed to return for
`GetParticipantsByContest(contest_id)`: any permutation of the rows
matching the contest that is pairwise consistent with the two requested
sort keys.  SQL leaves the relative order of key-equal rows
unspecified, so this relation — not a single list — is the contract of
the query. -/
def validGetParticipantsByContest (s : Store) (contestId : Nat)
    (out : List Participant) : Prop :=
  (s.participants.filter (fun p => p.contestId == contestId)).Perm out ∧
    out.Pairwise leaderboardOrder

/-- One concrete row order satisfying the query contract: the matching
rows in stored order, stably sorted by the two requested keys. -/
def ParticipantRepository.GetParticipantsByContest (s : Store) (contestId : Nat) :
    List Participant :=
  List.insertionSort leaderboardOrder
    (s.participants.filter (fun p => p.contestId == contestId))

/-- The immutable payload of a registered `ContestInstance` (the
channels, being process artefacts, are not part of the state). -/
structure ContestInstance where
  id : Nat
  startedAt : Int
  endsAt : Int
  deriving DecidableEq, Repr

/-- The coordinator state: the durable store plus the in-memory
`active_contests` registry and the set of contest ids that currently
hold leaderboard subscriber lists. -/
structure CoordinatorState where
  store : Store
  activeContests : List ContestInstance
  leaderboardSubscribers : List Nat
  deriving DecidableEq, Repr

/-- Coordinator-level failure modes.  `nilPointerPanic` marks the point
where the Go code would dereference a nil pointer (there is no error
value there in the source — the process would crash). -/
inductive CoordError where
  | contestNotFound
  | participantNotFound
  | problemResultNotFound
  | getSubmissionFailed
  | nilPointerPanic
  deriving DecidableEq, Repr

/-- `models.ExecutionResult` as consumed by the verdict loop (fields the
loop never reads are omitted). -/
structure ExecutionResult where
  submissionId : Nat
  status : SubmissionStatus
  verdictMessage : List Char
  totalTestCases : Int
  passedTestCases : Int
  deriving DecidableEq, Repr

/-- `ContestCoordinator.StopContest`: look the instance up in
`active_contests` (error when absent), close its stop channel, persist
`FINISHED`, then delete the registry entry and the subscriber list.
The channel close is a process effect with no state counterpart. -/
def ContestCoordinator.StopContest (c : CoordinatorState) (contestId : Nat) :
    Except CoordError CoordinatorState :=
  match c.activeContests.find? (fun i => i.id == contestId) with
  | none => Except.error CoordError.contestNotFound
  | some _ =>
      Except.ok
        { store := ContestRepository.UpdateContestState c.store contestId ContestState.finished
          activeContests := c.activeContests.filter (fun i => !(i.id == contestId))
          leaderboardSubscribers := c.leaderboardSubscribers.filter (fun x => !(x == contestId)) }

/-- The ProblemResult transition applied by
`ContestCoordinator.updateParticipantStats`: a first ACCEPTED sets the
status and stamps `penalty_seconds` with the whole-second difference
`submission.SubmittedAt − contestStartTime`; a non-ACCEPTED status
promotes NON_TRIED to TRIED and increments `penalty_count` (the source
checks only the new status here, not the prior one); otherwise the row
is left as is. -/
def scoringTransition (problemResult : ProblemResult) (status : SubmissionStatus)
    (sub : Submission) (contestStartTime : Int) : ProblemResult :=
  if status = SubmissionStatus.accepted ∧ problemResult.status ≠ ProblemStatus.accepted then
    { problemResult with
        status := ProblemStatus.accepted
        penaltySeconds := sub.submittedAt - contestStartTime }
  else if status ≠ SubmissionStatus.accepted then
    { problemResult with
        status :=
          if problemResult.status = ProblemStatus.nonTried then ProblemStatus.tried
          else problemResult.status
        penaltyCount := problemResult.penaltyCount + 1 }
  else
    problemResult

/-- The ACCEPTED problem results of one participant (the rows the
recomputation loop of `updateParticipantStats` sums over). -/
def acceptedResultsOf (s : Store) (participantId : Nat) : List ProblemResult :=
  (s.problemResults.filter (fun pr => pr.participantId == participantId)).filter
    (fun pr => pr.status == ProblemStatus.accepted)

/-- `participant.Solved` recomputed from scratch. -/
def recomputedSolved (s : Store) (participantId : Nat) : Int :=
  (acceptedResultsOf s participantId).length

/-- `participant.TotalPenaltySeconds` recomputed from scratch:
`Σ (penalty_seconds + penalty_count × 60)` over ACCEPTED rows. -/
def recomputedPenalty (s : Store) (participantId : Nat) : Int :=
  (acceptedResultsOf s participantId).foldl
    (fun a pr => a + pr.penaltySeconds + pr.penaltyCount * 60) 0

/-- `ContestCoordinator.updateParticipantStats`: loads the participant
(`nil` → error), finds the ProblemResult for the submitted problem
(absent → error), applies the scoring transition, upserts the result
and recomputes the participant aggregates from all of their problem
results. -/
def ContestCoordinator.updateParticipantStats (s : Store) (sub : Submission)
    (status : SubmissionStatus) (contestStartTime : Int) : Except CoordError Store :=
  match ParticipantRepository.GetParticipant s sub.participantId with
  | Except.error _ => Except.error CoordError.participantNotFound
  | Except.ok none => Except.error CoordError.participantNotFound
  | Except.ok (some _) =>
    match s.problemResults.find? (fun pr =>
        pr.participantId == sub.participantId && pr.problemId == sub.problemId) with
    | none => Except.error CoordError.problemResultNotFound
    | some problemResult =>
      let s1 := ProblemResultRepository.UpsertProblemResult s
        (scoringTransition problemResult status sub contestStartTime)
      Except.ok
        (ParticipantRepository.UpdateParticipantStats s1 sub.participantId
          (recomputedSolved s1 sub.participantId) (recomputedPenalty s1 sub.participantId))

/-- `ContestCoordinator.handleExecutionResult` (verdict-ingestion loop
body): persist status and progress unconditionally, reload the
submission, skip ranking when the contest is not in `active_contests`,
return early for every non-ACCEPTED verdict, otherwise update the
participant stats (failures there are logged, not fatal).  A reload
that finds no row passes the nil error check and the next field access
would crash — modelled as `nilPointerPanic`. -/
def ContestCoordinator.handleExecutionResult (c : CoordinatorState)
    (result : ExecutionResult) : Except CoordError CoordinatorState :=
  let s1 := SubmissionRepository.UpdateSubmissionStatus c.store result.submissionId
    result.status result.verdictMessage
  let s2 := SubmissionRepository.UpdateSubmissionTestCaseProgress s1 result.submissionId
    result.totalTestCases result.passedTestCases
  match SubmissionRepository.GetSubmission s2 result.submissionId with
  | Except.error _ => Except.error CoordError.getSubmissionFailed
  | Except.ok none => Except.error CoordError.nilPointerPanic
  | Except.ok (some submission) =>
    match c.activeContests.find? (fun i => i.id == submission.contestId) with
    | none => Except.ok { c with store := s2 }
    | some inst =>
      if result.status ≠ SubmissionStatus.accepted then
        Except.ok { c with store := s2 }
      else
        match ContestCoordinator.updateParticipantStats s2 submission result.status
            inst.startedAt with
        | Except.error _ => Except.ok { c with store := s2 }
        | Except.ok s3 => Except.ok { c with store := s3 }

/-- Rejection causes of `ContestService.CreateContest`. -/
inductive SvcError where
  | invalidNumProblems
  | noParticipantModels
  | notEnoughProblems
  deriving DecidableEq, Repr

/-- `ContestService.CreateContest`.  Validation happens before any
write; the contest row is inserted next; only then are the random
problems fetched and counted, so the "not enough problems" rejection
leaves the already-created contest row behind (there is no surrounding
transaction).  The nondeterministic inputs of the real call — the
clock, the fresh contest id, the randomly drawn problem ids and the
fresh participant ids — are passed as oracle parameters.  The final
`coordinator.StartContest` call is outside this model. -/
def ContestService.CreateContest (s : Store) (numProblems : Int)
    (participantModels : List Nat) (now : Int) (newContestId : Nat)
    (randomProblems : List Nat) (newParticipantIds : List Nat) :
    Store × Option SvcError :=
  if numProblems ≤ 0 then
    (s, some SvcError.invalidNumProblems)
  else if participantModels.length = 0 then
    (s, some SvcError.noParticipantModels)
  else
    let contest : Contest :=
      { id := newContestId
        state := ContestState.running
        startedAt := now
        endsAt := now + 300
        numProblems := numProblems }
    let s1 := { s with contests := s.contests ++ [contest] }
    if (randomProblems.length : Int) < numProblems then
      (s1, some SvcError.notEnoughProblems)
    else
      let s2 := { s1 with
        contestProblems :=
          s1.contestProblems ++ randomProblems.map (fun pid => (newContestId, pid)) }
      let pairs := newParticipantIds.zip participantModels
      let s3 := { s2 with
        participants := s2.participants ++ pairs.map (fun pm =>
          { id := pm.1
            contestId := newContestId
            modelName := pm.2
            solved := 0
            totalPenaltySeconds := 0 }) }
      let s4 := pairs.foldl
        (fun acc pm =>
          randomProblems.foldl
            (fun acc2 pid =>
              ProblemResultRepository.UpsertProblemResult acc2
                { participantId := pm.1
                  problemId := pid
                  status := ProblemStatus.nonTried
                  penaltyCount := 0
                  penaltySeconds := 0 })
            acc)
        s3
      (s4, none)



/-! ### Supporting lemmas -/

/-- The head surviving a `dropWhile` fails the predicate. -/
theorem dropWhile_head_not {α : Type} (p : α → Bool) :
    ∀ (s : List α) (hd : α) (tl : List α), s.dropWhile p = hd :: tl → p hd = false := by
  intro s
  induction s with
  | nil =>
      intro hd tl h
      simp [List.dropWhile] at h
  | cons a s ih =>
      intro hd tl h
      rw [List.dropWhile_cons] at h
      by_cases hpa : p a
      · rw [if_pos hpa] at h
        exact ih hd tl h
      · rw [if_neg hpa] at h
        injection h with h1 h2
        subst h1
        simpa using hpa

/-- `strings.TrimSpace` is idempotent. -/
theorem TrimSpace_idempotent (s : List Char) :
    strings.TrimSpace (strings.TrimSpace s) = strings.TrimSpace s := by
  have hx : s.dropWhile goIsSpace
      = strings.TrimSpace s ++ ((s.dropWhile goIsSpace).reverse.takeWhile goIsSpace).reverse :=
    calc s.dropWhile goIsSpace
        = ((s.dropWhile goIsSpace).reverse).reverse := (List.reverse_reverse _).symm
      _ = (((s.dropWhile goIsSpace).reverse).takeWhile goIsSpace
            ++ ((s.dropWhile goIsSpace).reverse).dropWhile goIsSpace).reverse := by
            rw [List.takeWhile_append_dropWhile]
      _ = strings.TrimSpace s
            ++ ((s.dropWhile goIsSpace).reverse.takeWhile goIsSpace).reverse := by
            rw [List.reverse_append]
            rfl
  have step1 : (strings.TrimSpace s).dropWhile goIsSpace = strings.TrimSpace s := by
    obtain ⟨w, hw⟩ : ∃ w, s.dropWhile goIsSpace = strings.TrimSpace s ++ w := ⟨_, hx⟩
    cases hT : strings.TrimSpace s with
    | nil => simp
    | cons hd tl =>
        have hs : s.dropWhile goIsSpace = hd :: (tl ++ w) := by
          rw [hw, hT]
          rfl
        have hhd : goIsSpace hd = false := dropWhile_head_not goIsSpace s hd _ hs
        rw [List.dropWhile_cons, if_neg (by simp [hhd])]
  have step2 : (strings.TrimSpace s).reverse
      = (s.dropWhile goIsSpace).reverse.dropWhile goIsSpace := by
    unfold strings.TrimSpace
    rw [List.reverse_reverse]
  calc strings.TrimSpace (strings.TrimSpace s)
      = (((strings.TrimSpace s).dropWhile goIsSpace).reverse.dropWhile goIsSpace).reverse := rfl
    _ = ((strings.TrimSpace s).reverse.dropWhile goIsSpace).reverse := by rw [step1]
    _ = (((s.dropWhile goIsSpace).reverse.dropWhile goIsSpace).dropWhile goIsSpace).reverse := by
          rw [step2]
    _ = ((s.dropWhile goIsSpace).reverse.dropWhile goIsSpace).reverse := by
          rw [List.dropWhile_idempotent]
    _ = strings.TrimSpace s := rfl

/-- Per-test-case facts about the direct executor: the reported memory
is always 0 and the status is never MEMORY_LIMIT_EXCEEDED. -/
theorem directExecuteTestCase_no_mle (tc : TestCaseData) (timedOut : Bool)
    (exitCode : Int) (raw : List Char) (t : Int) :
    (DirectExecutor.executeTestCase tc timedOut exitCode raw t).memoryUsedKb = 0 ∧
    (DirectExecutor.executeTestCase tc timedOut exitCode raw t).status
      ≠ TestCaseStatus.memoryLimitExceeded := by
  constructor
  · unfold DirectExecutor.executeTestCase
    split_ifs <;> rfl
  · unfold DirectExecutor.executeTestCase
    split_ifs <;> simp

/-- Every result produced by the direct test-case loop reports zero
memory and never MEMORY_LIMIT_EXCEEDED. -/
theorem runTestCases_no_mle :
    ∀ (runs : List (TestCaseData × DirectRun)) (r : TestCaseResult),
      r ∈ DirectExecutor.runTestCases runs →
      r.memoryUsedKb = 0 ∧ r.status ≠ TestCaseStatus.memoryLimitExceeded := by
  intro runs
  induction runs with
  | nil =>
      intro r hr
      simp [DirectExecutor.runTestCases] at hr
  | cons p rest ih =>
      obtain ⟨tc, run⟩ := p
      intro r hr
      simp only [DirectExecutor.runTestCases] at hr
      by_cases hpass : (DirectExecutor.executeTestCase tc run.timedOut run.exitCode
          run.rawStdout run.actualTimeMs).status = TestCaseStatus.passed
      · rw [if_pos hpass] at hr
        rcases List.mem_cons.mp hr with hr1 | hr2
        · subst hr1
          exact directExecuteTestCase_no_mle tc run.timedOut run.exitCode
            run.rawStdout run.actualTimeMs
        · exact ih r hr2
      · rw [if_neg hpass] at hr
        rcases List.mem_singleton.mp hr with hr1
        subst hr1
        exact directExecuteTestCase_no_mle tc run.timedOut run.exitCode
          run.rawStdout run.actualTimeMs

/-- One aggregation step cannot introduce MEMORY_LIMIT_EXCEEDED unless
the test case carried it. -/
theorem aggregateStep_no_mle (acc : SubmissionStatus) (r : TestCaseResult)
    (hacc : acc ≠ SubmissionStatus.memoryLimitExceeded)
    (hr : r.status ≠ TestCaseStatus.memoryLimitExceeded) :
    DirectExecutor.aggregateStep acc r ≠ SubmissionStatus.memoryLimitExceeded := by
  cases hst : r.status <;>
    simp only [DirectExecutor.aggregateStep, hst] <;>
    first
      | exact hacc
      | decide
      | exact absurd hst hr

/-- The aggregation fold cannot produce MEMORY_LIMIT_EXCEEDED from
results that never carry it. -/
theorem aggregateFold_no_mle :
    ∀ (results : List TestCaseResult) (acc : SubmissionStatus),
      acc ≠ SubmissionStatus.memoryLimitExceeded →
      (∀ r ∈ results, r.status ≠ TestCaseStatus.memoryLimitExceeded) →
      results.foldl DirectExecutor.aggregateStep acc
        ≠ SubmissionStatus.memoryLimitExceeded := by
  intro results
  induction results with
  | nil =>
      intro acc hacc _
      simpa using hacc
  | cons r rest ih =>
      intro acc hacc hall
      rw [List.foldl_cons]
      exact ih _ (aggregateStep_no_mle acc r hacc (hall r (by simp)))
        (fun x hx => hall x (by simp [hx]))

/-! ### Claim theorems -/

/-- C4: for every test case whose run finished without timing out and
with exit code 0 (and, on the Docker backend, within the memory limit,
which is checked before the output comparison there), the classification
follows the chain of the specification: equal after trimming surrounding
whitespace → PASSED; otherwise equal after removing all spaces and
newlines from both → PRESENTATION_ERROR; otherwise WRONG_ANSWER.  The
compared outputs are the ones the executors report: the Docker backend
compares the trimmed container stdout against the raw expectation, the
direct backend compares the trimmed stdout against the trimmed
expectation. -/
theorem outputClassificationFollowsChain :
    (∀ (limit : Int) (tc : TestCaseData) (mem : Int) (raw : List Char) (t : Int),
      mem ≤ limit * 1024 →
      (DockerExecutor.executeTestCase limit tc false 0 mem raw t).status
        = outputChainStatus (DockerExecutor.readContainerOutput raw) tc.expectedOutput) ∧
    (∀ (tc : TestCaseData) (raw : List Char) (t : Int),
      (DirectExecutor.executeTestCase tc false 0 raw t).status
        = outputChainStatus (strings.TrimSpace raw) (strings.TrimSpace tc.expectedOutput)) := by
  constructor
  · intro limit tc mem raw t hmem
    unfold DockerExecutor.executeTestCase
    rw [if_neg (by simp : ¬ (false = true))]
    rw [if_neg (by omega : ¬ ((0 : Int) ≠ 0))]
    rw [if_neg (by omega : ¬ (mem > limit * 1024))]
    unfold outputChainStatus DockerExecutor.compareOutput
      DockerExecutor.compareOutputIgnoreWhitespace DockerExecutor.readContainerOutput
    by_cases h1 : strings.TrimSpace (strings.TrimSpace raw)
        = strings.TrimSpace tc.expectedOutput
    · simp [h1]
    · by_cases h2 : stripSpaceNewline (strings.TrimSpace raw)
          = stripSpaceNewline tc.expectedOutput
      · simp [h1, h2]
      · simp [h1, h2]
  · intro tc raw t
    unfold DirectExecutor.executeTestCase
    rw [if_neg (by simp : ¬ (false = true))]
    rw [if_neg (by omega : ¬ ((0 : Int) ≠ 0))]
    unfold outputChainStatus DirectExecutor.compareOutputIgnoreWhitespace
    rw [TrimSpace_idempotent raw, TrimSpace_idempotent tc.expectedOutput]
    by_cases h1 : strings.TrimSpace raw = strings.TrimSpace tc.expectedOutput
    · simp [h1]
    · by_cases h2 : stripSpaceNewline (strings.TrimSpace raw)
          = stripSpaceNewline (strings.TrimSpace tc.expectedOutput)
      · simp [h1, h2]
      · simp [h1, h2]

/-- Witness for C4: a run printing " a" where "a" is expected is PASSED
on the Docker backend, exactly as the chain prescribes. -/
theorem outputClassificationFollowsChain_witness :
    (0 : Int) ≤ 256 * 1024 ∧
    (DockerExecutor.executeTestCase 256 ⟨[], [Char.ofNat 97], 1⟩ false 0 0
        [Char.ofNat 32, Char.ofNat 97] 3).status
      = outputChainStatus
          (DockerExecutor.readContainerOutput [Char.ofNat 32, Char.ofNat 97])
          [Char.ofNat 97] :=
  ⟨by norm_num,
    outputClassificationFollowsChain.1 256 ⟨[], [Char.ofNat 97], 1⟩ 0
      [Char.ofNat 32, Char.ofNat 97] 3 (by norm_num)⟩

/-- C5 (amended): in `DockerExecutor.executeTestCase` the non-zero-exit
check runs before the memory check.  A non-timed-out run with exit 0 and
over-limit memory is MEMORY_LIMIT_EXCEEDED, but a non-zero-exit run is
RUNTIME_ERROR even when its memory exceeds the limit. -/
theorem dockerExitCheckBeforeMemoryCheck :
    ∀ (limit : Int) (tc : TestCaseData) (exitCode mem : Int) (raw : List Char) (t : Int),
      (exitCode = 0 → mem > limit * 1024 →
        (DockerExecutor.executeTestCase limit tc false exitCode mem raw t).status
          = TestCaseStatus.memoryLimitExceeded) ∧
      (exitCode ≠ 0 →
        (DockerExecutor.executeTestCase limit tc false exitCode mem raw t).status
          = TestCaseStatus.runtimeError) := by
  intro limit tc exitCode mem raw t
  constructor
  · intro h0 hm
    subst h0
    unfold DockerExecutor.executeTestCase
    rw [if_neg (by simp : ¬ (false = true))]
    rw [if_neg (by omega : ¬ ((0 : Int) ≠ 0))]
    rw [if_pos hm]
  · intro hne
    unfold DockerExecutor.executeTestCase
    rw [if_neg (by simp : ¬ (false = true))]
    rw [if_pos hne]

/-- Witness for the amended C5: exit 0 with 2048 kB against a 1 MB limit
is MEMORY_LIMIT_EXCEEDED. -/
theorem dockerExitCheckBeforeMemoryCheck_witness :
    ((0 : Int) = 0 ∧ (2048 : Int) > 1 * 1024) ∧
    (DockerExecutor.executeTestCase 1 ⟨[], [], 1⟩ false 0 2048 [] 0).status
      = TestCaseStatus.memoryLimitExceeded :=
  ⟨⟨rfl, by norm_num⟩,
    (dockerExitCheckBeforeMemoryCheck 1 ⟨[], [], 1⟩ 0 2048 [] 0).1 rfl (by norm_num)⟩

/-- Counterexample to C5 as stated: a non-timed-out run with exit code 1
and 2048 kB of memory against a 1 MB limit is classified RUNTIME_ERROR,
not MEMORY_LIMIT_EXCEEDED — the memory check is not applied before the
non-zero-exit check. -/
theorem dockerMemoryBeforeExit_counterexample :
    (2048 : Int) > 1 * 1024 ∧
    (DockerExecutor.executeTestCase 1 ⟨[], [], 1⟩ false 1 2048 [] 0).status
      = TestCaseStatus.runtimeError ∧
    TestCaseStatus.runtimeError ≠ TestCaseStatus.memoryLimitExceeded := by
  refine ⟨by norm_num, ?_, by decide⟩
  decide

/-- C9: on the direct-executor backend — the one `NewWorkerService`
constructs — every test-case result reports `MemoryUsedKb = 0`, no
test-case status is ever MEMORY_LIMIT_EXCEEDED, and no submission
verdict produced by `Execute` is MEMORY_LIMIT_EXCEEDED: the memory
limit of the request is never enforced. -/
theorem directBackendNeverMemoryLimited :
    (∀ (tc : TestCaseData) (timedOut : Bool) (exitCode : Int) (raw : List Char) (t : Int),
      (DirectExecutor.executeTestCase tc timedOut exitCode raw t).memoryUsedKb = 0 ∧
      (DirectExecutor.executeTestCase tc timedOut exitCode raw t).status
        ≠ TestCaseStatus.memoryLimitExceeded) ∧
    (∀ (runs : List (TestCaseData × DirectRun)) (r : TestCaseResult),
      r ∈ DirectExecutor.runTestCases runs →
      r.memoryUsedKb = 0 ∧ r.status ≠ TestCaseStatus.memoryLimitExceeded) ∧
    (∀ runs : List (TestCaseData × DirectRun),
      DirectExecutor.Execute (Except.ok (DirectExecutor.runTestCases runs))
        ≠ SubmissionStatus.memoryLimitExceeded) ∧
    (∀ e : ExecError,
      DirectExecutor.Execute (Except.error e) ≠ SubmissionStatus.memoryLimitExceeded) ∧
    NewWorkerService.executorKind = ExecutorKind.direct := by
  refine ⟨directExecuteTestCase_no_mle, runTestCases_no_mle, ?_, ?_, rfl⟩
  · intro runs
    exact aggregateFold_no_mle (DirectExecutor.runTestCases runs)
      SubmissionStatus.accepted (by decide)
      (fun r hr => (runTestCases_no_mle runs r hr).2)
  · intro e
    cases e <;> decide

/-- Witness for C9: the single passed result of a concrete run reports
zero memory and is not MEMORY_LIMIT_EXCEEDED. -/
theorem directBackendNeverMemoryLimited_witness :
    (⟨1, TestCaseStatus.passed, [], [], 5, 0⟩ : TestCaseResult).memoryUsedKb = 0 ∧
    (⟨1, TestCaseStatus.passed, [], [], 5, 0⟩ : TestCaseResult).status
      ≠ TestCaseStatus.memoryLimitExceeded :=
  directBackendNeverMemoryLimited.2.1 [(⟨[], [], 1⟩, ⟨false, 0, [], 5⟩)]
    ⟨1, TestCaseStatus.passed, [], [], 5, 0⟩ (by decide)

/-- `find?` over an id-keyed update map returns the updated row: the
update touches exactly the matching submission. -/
theorem find?_map_update (subs : List Submission) (id : Nat)
    (f : Submission → Submission) (hf : ∀ x, (f x).id = x.id) (old : Submission)
    (h : subs.find? (fun x => x.id == id) = some old) :
    (subs.map (fun x => if x.id == id then f x else x)).find? (fun x => x.id == id)
      = some (f old) := by
  induction subs with
  | nil => simp at h
  | cons a subs ih =>
      by_cases hp : (a.id == id) = true
      · rw [@List.find?_cons_of_pos _ (fun x => x.id == id) a subs hp] at h
        injection h with h1
        subst h1
        rw [List.map_cons, if_pos hp]
        have hfp : ((f a).id == id) = true := by
          rw [hf a]
          exact hp
        rw [@List.find?_cons_of_pos _ (fun x => x.id == id) (f a) _ hfp]
      · rw [@List.find?_cons_of_neg _ (fun x => x.id == id) a subs hp] at h
        rw [List.map_cons, if_neg hp]
        rw [@List.find?_cons_of_neg _ (fun x => x.id == id) a _ hp]
        exact ih h

/-- C2 (amended): `UpdateSubmissionStatus` overwrites the stored status
and verdict message unconditionally — whatever the previous status was,
terminal or not, the row afterwards carries the new status.  Terminal
immutability is not enforced by the repository. -/
theorem updateSubmissionStatusUnconditional :
    ∀ (s : Store) (id : Nat) (st : SubmissionStatus) (v : List Char) (old : Submission),
      s.submissions.find? (fun x => x.id == id) = some old →
      (SubmissionRepository.UpdateSubmissionStatus s id st v).submissions.find?
          (fun x => x.id == id)
        = some { old with status := st, verdictMessage := v } := by
  intro s id st v old h
  unfold SubmissionRepository.UpdateSubmissionStatus
  exact find?_map_update s.submissions id
    (fun x => { x with status := st, verdictMessage := v }) (fun x => rfl) old h

/-- Witness for the amended C2 at a concrete store. -/
theorem updateSubmissionStatusUnconditional_witness :
    ((⟨[], [], [], [⟨1, 0, 10, 20, SubmissionStatus.accepted, [], 3, 3, 40⟩], []⟩ :
        Store).submissions.find? (fun x => x.id == 1)
      = some ⟨1, 0, 10, 20, SubmissionStatus.accepted, [], 3, 3, 40⟩) ∧
    (SubmissionRepository.UpdateSubmissionStatus
        ⟨[], [], [], [⟨1, 0, 10, 20, SubmissionStatus.accepted, [], 3, 3, 40⟩], []⟩
        1 SubmissionStatus.wrongAnswer []).submissions.find? (fun x => x.id == 1)
      = some ⟨1, 0, 10, 20, SubmissionStatus.wrongAnswer, [], 3, 3, 40⟩ :=
  ⟨by decide,
    updateSubmissionStatusUnconditional
      ⟨[], [], [], [⟨1, 0, 10, 20, SubmissionStatus.accepted, [], 3, 3, 40⟩], []⟩
      1 SubmissionStatus.wrongAnswer []
      ⟨1, 0, 10, 20, SubmissionStatus.accepted, [], 3, 3, 40⟩ (by decide)⟩

/-- Counterexample to C2 as stated: a submission whose status is the
terminal ACCEPTED is overwritten to WRONG_ANSWER by a subsequent
`UpdateSubmissionStatus` — terminal statuses are not immutable. -/
theorem terminalImmutability_counterexample :
    SubmissionStatus.isTerminal SubmissionStatus.accepted = true ∧
    (SubmissionRepository.UpdateSubmissionStatus
        ⟨[], [], [], [⟨1, 0, 10, 20, SubmissionStatus.accepted, [], 3, 3, 40⟩], []⟩
        1 SubmissionStatus.wrongAnswer []).submissions.find? (fun x => x.id == 1)
      = some ⟨1, 0, 10, 20, SubmissionStatus.wrongAnswer, [], 3, 3, 40⟩ ∧
    SubmissionStatus.wrongAnswer ≠ SubmissionStatus.accepted := by
  refine ⟨by decide, by decide, by decide⟩

/-- C3 (amended): the participant list for a contest is sorted by the
two requested keys only — `solved DESC, total_penalty_seconds ASC` —
and is a permutation of the contest's rows.  No id tie-break is part of
the query, so equal-key participants may come back in any order. -/
theorem getParticipantsByContestSortedTwoKeys :
    ∀ (s : Store) (contestId : Nat),
      validGetParticipantsByContest s contestId
        (ParticipantRepository.GetParticipantsByContest s contestId) := by
  intro s contestId
  constructor
  · exact (List.perm_insertionSort leaderboardOrder _).symm
  · exact List.sorted_insertionSort leaderboardOrder _

/-- Counterexample to C3 as stated: with two participants tied on both
keys, the order with the larger id first also satisfies everything the
query requests, yet violates the claimed `id ASC` tie-break; the model
of the query returns exactly that order when the rows are stored that
way, so the tie order is not deterministic by id. -/
theorem leaderboardTieBreak_counterexample :
    validGetParticipantsByContest
        ⟨[], [⟨1, 0, 0, 2, 120⟩, ⟨2, 0, 0, 2, 120⟩], [], [], []⟩ 0
        [⟨2, 0, 0, 2, 120⟩, ⟨1, 0, 0, 2, 120⟩] ∧
    ¬ List.Pairwise leaderboardOrderWithId
        [(⟨2, 0, 0, 2, 120⟩ : Participant), ⟨1, 0, 0, 2, 120⟩] ∧
    ParticipantRepository.GetParticipantsByContest
        ⟨[], [⟨2, 0, 0, 2, 120⟩, ⟨1, 0, 0, 2, 120⟩], [], [], []⟩ 0
      = [⟨2, 0, 0, 2, 120⟩, ⟨1, 0, 0, 2, 120⟩] := by
  refine ⟨?_, ?_, ?_⟩
  · unfold validGetParticipantsByContest
    constructor
    · decide
    · decide
  · decide
  · decide

/-- After a removal keyed on `contestId`, no instance with that id can
be found. -/
theorem find?_filter_removed (l : List ContestInstance) (contestId : Nat) :
    (l.filter (fun i => !(i.id == contestId))).find? (fun i => i.id == contestId)
      = none := by
  induction l with
  | nil => rfl
  | cons a l ih =>
      by_cases h : (a.id == contestId) = true
      · rw [List.filter_cons, if_neg (by simp [h])]
        exact ih
      · rw [List.filter_cons, if_pos (by simp [h])]
        rw [@List.find?_cons_of_neg _ (fun i => i.id == contestId) a _ h]
        exact ih

/-- C7 (amended): `StopContest` is not idempotent — after a successful
`StopContest(id)` the instance is removed from `active_contests`, so a
second call for the same id fails the registry lookup and returns the
"contest not found" error (performing no state change, as the error
path returns before any write). -/
theorem stopContestSecondCallErrors :
    ∀ (c : CoordinatorState) (contestId : Nat) (c2 : CoordinatorState),
      ContestCoordinator.StopContest c contestId = Except.ok c2 →
      ContestCoordinator.StopContest c2 contestId
        = Except.error CoordError.contestNotFound := by
  intro c contestId c2 h
  unfold ContestCoordinator.StopContest at h
  cases hf : c.activeContests.find? (fun i => i.id == contestId) with
  | none =>
      rw [hf] at h
      exact absurd h (by simp)
  | some inst =>
      rw [hf] at h
      injection h with h2
      have hnone : c2.activeContests.find? (fun i => i.id == contestId) = none := by
        rw [← h2]
        exact find?_filter_removed c.activeContests contestId
      unfold ContestCoordinator.StopContest
      rw [hnone]

/-- Witness for the amended C7 at a concrete coordinator state. -/
theorem stopContestSecondCallErrors_witness :
    ContestCoordinator.StopContest
        ⟨⟨[⟨0, ContestState.finished, 0, 300, 1⟩], [], [], [], []⟩, [], []⟩ 0
      = Except.error CoordError.contestNotFound :=
  stopContestSecondCallErrors
    ⟨⟨[⟨0, ContestState.running, 0, 300, 1⟩], [], [], [], []⟩, [⟨0, 0, 300⟩], [0]⟩ 0
    ⟨⟨[⟨0, ContestState.finished, 0, 300, 1⟩], [], [], [], []⟩, [], []⟩ rfl

/-- Counterexample to C7 as stated: the first `StopContest` succeeds,
the second returns an error instead of succeeding — `StopContest` is
not idempotent. -/
theorem stopContestIdempotent_counterexample :
    ContestCoordinator.StopContest
        ⟨⟨[⟨0, ContestState.running, 0, 300, 1⟩], [], [], [], []⟩, [⟨0, 0, 300⟩], [0]⟩ 0
      = Except.ok ⟨⟨[⟨0, ContestState.finished, 0, 300, 1⟩], [], [], [], []⟩, [], []⟩ ∧
    ContestCoordinator.StopContest
        ⟨⟨[⟨0, ContestState.finished, 0, 300, 1⟩], [], [], [], []⟩, [], []⟩ 0
      = Except.error CoordError.contestNotFound := by
  constructor
  · rfl
  · rfl

/-- A keyed `find?` on a list with no matching key yields `none`. -/
theorem find?_beq_none {α : Type} (key : α → Nat) (l : List α) (id : Nat)
    (h : ∀ x ∈ l, key x ≠ id) : l.find? (fun x => key x == id) = none := by
  rw [List.find?_eq_none]
  intro x hx
  simpa using h x hx

/-- An id-preserving row update cannot make an absent id appear. -/
theorem absent_after_map (f : Submission → Submission)
    (hf : ∀ x, (f x).id = x.id) (l : List Submission) (id : Nat)
    (h : ∀ x ∈ l, x.id ≠ id) : ∀ x ∈ l.map f, x.id ≠ id := by
  intro x hx
  obtain ⟨y, hy, rfl⟩ := List.mem_map.mp hx
  rw [hf y]
  exact h y hy

/-- C10: the point reads `GetSubmission`, `GetParticipant` and
`GetContest` signal a missing row with a nil entity and a nil error
(`Except.ok none`), never with an error; consequently the verdict
loop's `handleExecutionResult`, which checks only the error, passes
that check for an unknown submission id and crashes on the nil entity
at the next field access. -/
theorem pointReadsSignalAbsenceWithNil :
    (∀ (s : Store) (id : Nat), (∀ x ∈ s.submissions, x.id ≠ id) →
      SubmissionRepository.GetSubmission s id = Except.ok none) ∧
    (∀ (s : Store) (id : Nat), (∀ x ∈ s.participants, x.id ≠ id) →
      ParticipantRepository.GetParticipant s id = Except.ok none) ∧
    (∀ (s : Store) (id : Nat), (∀ x ∈ s.contests, x.id ≠ id) →
      ContestRepository.GetContest s id = Except.ok none) ∧
    (∀ (c : CoordinatorState) (result : ExecutionResult),
      (∀ x ∈ c.store.submissions, x.id ≠ result.submissionId) →
      ContestCoordinator.handleExecutionResult c result
        = Except.error CoordError.nilPointerPanic) := by
  refine ⟨?_, ?_, ?_, ?_⟩
  · intro s id h
    unfold SubmissionRepository.GetSubmission
    rw [find?_beq_none (fun x => x.id) s.submissions id h]
  · intro s id h
    unfold ParticipantRepository.GetParticipant
    rw [find?_beq_none (fun x => x.id) s.participants id h]
  · intro s id h
    unfold ContestRepository.GetContest
    rw [find?_beq_none (fun x => x.id) s.contests id h]
  · intro c result h
    have habs2 : ∀ x ∈ (SubmissionRepository.UpdateSubmissionTestCaseProgress
        (SubmissionRepository.UpdateSubmissionStatus c.store result.submissionId
          result.status result.verdictMessage)
        result.submissionId result.totalTestCases result.passedTestCases).submissions,
        x.id ≠ result.submissionId := by
      unfold SubmissionRepository.UpdateSubmissionTestCaseProgress
        SubmissionRepository.UpdateSubmissionStatus
      apply absent_after_map
      · intro x
        by_cases hx : (x.id == result.submissionId) = true <;> simp [hx]
      · apply absent_after_map
        · intro x
          by_cases hx : (x.id == result.submissionId) = true <;> simp [hx]
        · exact h
    have hGet : SubmissionRepository.GetSubmission
        (SubmissionRepository.UpdateSubmissionTestCaseProgress
          (SubmissionRepository.UpdateSubmissionStatus c.store result.submissionId
            result.status result.verdictMessage)
          result.submissionId result.totalTestCases result.passedTestCases)
        result.submissionId = Except.ok none := by
      unfold SubmissionRepository.GetSubmission
      exact congrArg Except.ok (find?_beq_none (fun x : Submission => x.id) _ _ habs2)
    simp only [ContestCoordinator.handleExecutionResult]
    rw [hGet]

/-- Witness for C10: in an empty store, the reads return `ok none` and
the verdict loop reaches the nil dereference. -/
theorem pointReadsSignalAbsenceWithNil_witness :
    SubmissionRepository.GetSubmission ⟨[], [], [], [], []⟩ 5 = Except.ok none ∧
    ParticipantRepository.GetParticipant ⟨[], [], [], [], []⟩ 5 = Except.ok none ∧
    ContestRepository.GetContest ⟨[], [], [], [], []⟩ 5 = Except.ok none ∧
    ContestCoordinator.handleExecutionResult ⟨⟨[], [], [], [], []⟩, [], []⟩
        ⟨5, SubmissionStatus.accepted, [], 3, 3⟩
      = Except.error CoordError.nilPointerPanic :=
  ⟨pointReadsSignalAbsenceWithNil.1 ⟨[], [], [], [], []⟩ 5 (by simp),
    pointReadsSignalAbsenceWithNil.2.1 ⟨[], [], [], [], []⟩ 5 (by simp),
    pointReadsSignalAbsenceWithNil.2.2.1 ⟨[], [], [], [], []⟩ 5 (by simp),
    pointReadsSignalAbsenceWithNil.2.2.2 ⟨⟨[], [], [], [], []⟩, [], []⟩
      ⟨5, SubmissionStatus.accepted, [], 3, 3⟩ (by simp)⟩

/-- The scoring transition preserves "zero penalty seconds unless
ACCEPTED": the accepted branch is the only writer of
`penalty_seconds`, and the non-accepted branch never moves a row out
of ACCEPTED. -/
theorem scoringTransition_penaltyZero (problemResult : ProblemResult)
    (status : SubmissionStatus) (sub : Submission) (t : Int)
    (h0 : problemResult.status ≠ ProblemStatus.accepted → problemResult.penaltySeconds = 0) :
    (scoringTransition problemResult status sub t).status ≠ ProblemStatus.accepted →
    (scoringTransition problemResult status sub t).penaltySeconds = 0 := by
  unfold scoringTransition
  split_ifs with h1 h2 h3
  · intro hst
    exact absurd rfl hst
  · intro _
    exact h0 (by rw [h3]; decide)
  · intro hst
    exact h0 hst
  · exact h0

/-- Membership after an upsert: a row is the upserted one or was
already present. -/
theorem mem_upsertProblemResult (s : Store) (pr x : ProblemResult)
    (hx : x ∈ (ProblemResultRepository.UpsertProblemResult s pr).problemResults) :
    x = pr ∨ x ∈ s.problemResults := by
  unfold ProblemResultRepository.UpsertProblemResult at hx
  by_cases hc : s.problemResults.any (fun y =>
      y.participantId == pr.participantId && y.problemId == pr.problemId) = true
  · rw [if_pos hc] at hx
    obtain ⟨y, hy, hxy⟩ := List.mem_map.mp hx
    by_cases hcy : (y.participantId == pr.participantId && y.problemId == pr.problemId) = true
    · rw [if_pos hcy] at hxy
      exact Or.inl hxy.symm
    · rw [if_neg hcy] at hxy
      right
      rw [← hxy]
      exact hy
  · rw [if_neg hc] at hx
    rcases List.mem_append.mp hx with h1 | h2
    · exact Or.inr h1
    · exact Or.inl (List.mem_singleton.mp h2)

/-- C6 (amended): the coordinator scoring update preserves the
invariant that a NON_TRIED or TRIED ProblemResult has
`penalty_seconds = 0` (equivalently, `penalty_seconds > 0` only if
ACCEPTED).  The converse direction of the claimed "iff" fails: an
ACCEPTED row may carry `penalty_seconds = 0` when the accepted
submission lands in the same second as the contest start. -/
theorem penaltySecondsZeroUnlessAccepted :
    ∀ (s : Store) (sub : Submission) (status : SubmissionStatus) (t : Int) (s2 : Store),
      (∀ pr ∈ s.problemResults, pr.status ≠ ProblemStatus.accepted → pr.penaltySeconds = 0) →
      ContestCoordinator.updateParticipantStats s sub status t = Except.ok s2 →
      ∀ pr ∈ s2.problemResults, pr.status ≠ ProblemStatus.accepted → pr.penaltySeconds = 0 := by
  intro s sub status t s2 hinv h
  unfold ContestCoordinator.updateParticipantStats ParticipantRepository.GetParticipant at h
  cases hp : s.participants.find? (fun x => x.id == sub.participantId) with
  | none =>
      rw [hp] at h
      simp at h
  | some part =>
      rw [hp] at h
      cases hf : s.problemResults.find? (fun pr =>
          pr.participantId == sub.participantId && pr.problemId == sub.problemId) with
      | none =>
          rw [hf] at h
          simp at h
      | some problemResult =>
          rw [hf] at h
          simp only [Except.ok.injEq] at h
          intro pr hpr hstat
          rw [← h] at hpr
          have hpr2 : pr ∈ (ProblemResultRepository.UpsertProblemResult s
              (scoringTransition problemResult status sub t)).problemResults := hpr
          rcases mem_upsertProblemResult _ _ _ hpr2 with h1 | h1
          · subst h1
            exact scoringTransition_penaltyZero problemResult status sub t
              (hinv problemResult (List.mem_of_find?_eq_some hf)) hstat
          · exact hinv pr h1 hstat

/-- Witness for the amended C6 at a concrete wrong-answer update. -/
theorem penaltySecondsZeroUnlessAccepted_witness :
    (⟨10, 20, ProblemStatus.tried, 2, 0⟩ : ProblemResult).penaltySeconds = 0 :=
  penaltySecondsZeroUnlessAccepted
    ⟨[], [⟨10, 0, 0, 0, 0⟩], [⟨10, 20, ProblemStatus.tried, 1, 0⟩], [], []⟩
    ⟨30, 0, 10, 20, SubmissionStatus.pending, [], 3, 0, 40⟩
    SubmissionStatus.wrongAnswer 0
    ⟨[], [⟨10, 0, 0, 0, 0⟩], [⟨10, 20, ProblemStatus.tried, 2, 0⟩], [], []⟩
    (by decide) rfl
    ⟨10, 20, ProblemStatus.tried, 2, 0⟩ (by decide) (by decide)

/-- Counterexample to C6 as stated: a submission accepted in the same
second as the contest start yields an ACCEPTED ProblemResult with
`penalty_seconds = 0`, so `penalty_seconds > 0 ↔ status = ACCEPTED`
fails. -/
theorem penaltySecondsIffAccepted_counterexample :
    ContestCoordinator.updateParticipantStats
        ⟨[], [⟨10, 0, 0, 0, 0⟩], [⟨10, 20, ProblemStatus.nonTried, 0, 0⟩], [], []⟩
        ⟨30, 0, 10, 20, SubmissionStatus.pending, [], 3, 0, 0⟩
        SubmissionStatus.accepted 0
      = Except.ok ⟨[], [⟨10, 0, 0, 1, 0⟩],
          [⟨10, 20, ProblemStatus.accepted, 0, 0⟩], [], []⟩ ∧
    (⟨10, 20, ProblemStatus.accepted, 0, 0⟩ : ProblemResult).status
      = ProblemStatus.accepted ∧
    (⟨10, 20, ProblemStatus.accepted, 0, 0⟩ : ProblemResult).penaltySeconds = 0 ∧
    ¬ ((⟨10, 20, ProblemStatus.accepted, 0, 0⟩ : ProblemResult).penaltySeconds > 0 ↔
        (⟨10, 20, ProblemStatus.accepted, 0, 0⟩ : ProblemResult).status
          = ProblemStatus.accepted) := by
  refine ⟨rfl, rfl, rfl, ?_⟩
  decide

/-- C1: evaluating the verdict-ingestion handler on a WRONG_ANSWER
result for a submission of an active contest whose ProblemResult is
NON_TRIED.  The handler returns before `updateParticipantStats`
(`if result.Status != ACCEPTED { return nil }`), so the ProblemResult
stays NON_TRIED with `penalty_count = 0` — the NON_TRIED → TRIED
promotion and the penalty increment prescribed by the specification
never happen on this path, although `updateParticipantStats` contains
exactly that (unreachable) branch. -/
theorem nonAcceptedVerdictLeavesProblemResultUntouched :
    (ContestCoordinator.handleExecutionResult
        ⟨⟨[⟨0, ContestState.running, 0, 300, 1⟩], [⟨10, 0, 0, 0, 0⟩],
            [⟨10, 20, ProblemStatus.nonTried, 0, 0⟩],
            [⟨30, 0, 10, 20, SubmissionStatus.pending, [], 3, 0, 40⟩], []⟩,
          [⟨0, 0, 300⟩], []⟩
        ⟨30, SubmissionStatus.wrongAnswer, [], 3, 0⟩).map
        (fun c => c.store.problemResults)
      = Except.ok [⟨10, 20, ProblemStatus.nonTried, 0, 0⟩] ∧
    (⟨10, 20, ProblemStatus.nonTried, 0, 0⟩ : ProblemResult).status ≠ ProblemStatus.tried ∧
    (⟨10, 20, ProblemStatus.nonTried, 0, 0⟩ : ProblemResult).penaltyCount ≠ 1 ∧
    ContestCoordinator.updateParticipantStats
        ⟨[⟨0, ContestState.running, 0, 300, 1⟩], [⟨10, 0, 0, 0, 0⟩],
          [⟨10, 20, ProblemStatus.nonTried, 0, 0⟩],
          [⟨30, 0, 10, 20, SubmissionStatus.wrongAnswer, [], 3, 0, 40⟩], []⟩
        ⟨30, 0, 10, 20, SubmissionStatus.wrongAnswer, [], 3, 0, 40⟩
        SubmissionStatus.wrongAnswer 0
      = Except.ok ⟨[⟨0, ContestState.running, 0, 300, 1⟩], [⟨10, 0, 0, 0, 0⟩],
          [⟨10, 20, ProblemStatus.tried, 1, 0⟩],
          [⟨30, 0, 10, 20, SubmissionStatus.wrongAnswer, [], 3, 0, 40⟩], []⟩ := by
  refine ⟨rfl, ?_, ?_, rfl⟩
  · decide
  · decide

/-- C8 (amended): `CreateContest` rejects `num_problems < 1` and an
empty `participant_models` before any write, leaving the store
unchanged; but the "not enough problems" rejection happens after the
contest row has been inserted, and that row is not rolled back. -/
theorem createContestRejectionStateChange :
    ∀ (s : Store) (numProblems : Int) (models : List Nat) (now : Int)
      (newContestId : Nat) (randomProblems newParticipantIds : List Nat),
      (numProblems ≤ 0 →
        ContestService.CreateContest s numProblems models now newContestId
            randomProblems newParticipantIds
          = (s, some SvcError.invalidNumProblems)) ∧
      (0 < numProblems → models = [] →
        ContestService.CreateContest s numProblems models now newContestId
            randomProblems newParticipantIds
          = (s, some SvcError.noParticipantModels)) ∧
      (0 < numProblems → models ≠ [] → (randomProblems.length : Int) < numProblems →
        ContestService.CreateContest s numProblems models now newContestId
            randomProblems newParticipantIds
          = ({ s with contests := s.contests ++
                [{ id := newContestId, state := ContestState.running, startedAt := now,
                   endsAt := now + 300, numProblems := numProblems }] },
             some SvcError.notEnoughProblems)) := by
  intro s numProblems models now newContestId randomProblems newParticipantIds
  refine ⟨?_, ?_, ?_⟩
  · intro h
    unfold ContestService.CreateContest
    rw [if_pos h]
  · intro h1 h2
    unfold ContestService.CreateContest
    rw [if_neg (by omega), if_pos (by rw [h2]; rfl)]
  · intro h1 h2 h3
    unfold ContestService.CreateContest
    rw [if_neg (by omega), if_neg (fun hlen => h2 (List.length_eq_zero.mp hlen)),
      if_pos h3]

/-- Witness for the amended C8: rejecting for lack of problems leaves
the freshly inserted contest row behind. -/
theorem createContestRejectionStateChange_witness :
    ContestService.CreateContest ⟨[], [], [], [], []⟩ 1 [7] 0 99 [] []
      = (⟨[⟨99, ContestState.running, 0, 300, 1⟩], [], [], [], []⟩,
         some SvcError.notEnoughProblems) :=
  (createContestRejectionStateChange ⟨[], [], [], [], []⟩ 1 [7] 0 99 [] []).2.2
    (by norm_num) (by decide) (by norm_num)

/-- Counterexample to C8 as stated: a request rejected with "not enough
problems" is not free of state change — the contest row exists after
the error. -/
theorem createContestNoStateChange_counterexample :
    (ContestService.CreateContest ⟨[], [], [], [], []⟩ 1 [7] 0 99 [] []).2
      = some SvcError.notEnoughProblems ∧
    (ContestService.CreateContest ⟨[], [], [], [], []⟩ 1 [7] 0 99 [] []).1.contests
      = [⟨99, ContestState.running, 0, 300, 1⟩] ∧
    ([⟨99, ContestState.running, 0, 300, 1⟩] : List Contest) ≠ [] := by
  refine ⟨rfl, rfl, ?_⟩
  decide
